import Mathlib

/-!
# Verification of the aitextgen generation post-processor and training coordinator

Shallow embedding of the core logic of `aitextgen/aitextgen.py`
(the schema-aware generation post-processor inside `aitextgen.generate`,
the retry loop around sampling, the `cross_train` hyperparameter decay,
and the precision resolution inside `aitextgen.train`), together with
theorems settling the specification claims about that code.

Conventions:
* token ids are `Nat`; positions inside a token sequence are `Int` so that the
  not-found sentinel `-1` of `find_index_of_subset` can be represented;
* Python dicts are modelled as association lists of the assignments performed,
  in program order, read back through `dictLookup` (the LAST binding for a key
  wins, matching dict assignment semantics);
* the external model and tokenizer are oracles (`sampler` and `decode`
  functions), matching the spec's treatment of them as opaque collaborators;
* Python truthiness of optional arguments (`if seed:`, `if prompt:`,
  `if min_length:`, `if schema_return:`) is embedded explicitly: `None`, `0`,
  `""` and `[]` are falsy.
-/

namespace Aitextgen

/-- Modelled from the spec: `find_index_of_subset` (imported by
`aitextgen.py` from the repository's `utils` module, which is not among the
given sources).  Per the spec it returns the starting index of the first
occurrence of `small` as a contiguous subsequence of `large`, with an empty
`small`, or one longer than the remaining output, treated as not found.  The
not-found sentinel is `-1`: this value is forced by the source's
`if start_index == -1` check (aitextgen.py line 391) and by the fact that the
positions are compared by `list.sort` (line 382; any non-integer sentinel
would raise a `TypeError` there, contradicting the spec's "never an error"). -/
def find_index_of_subset (large small : List Nat) : Int :=
  if small.isEmpty then -1
  else
    match (List.range large.length).find?
        (fun i => (large.drop i).take small.length == small) with
    | some i => (i : Int)
    | none => -1

/-- The regex `[\W_]+` substitution of `generate` (lines 369, 386-390): with
`normalize_key` enabled, a field key is the delimiter string stripped of every
non-alphanumeric character (Python `\W` is "non-word", and `_` is removed
explicitly, so exactly the alphanumeric characters remain). -/
def normKey (normalize : Bool) (s : String) : String :=
  if normalize then String.mk (s.toList.filter Char.isAlphanum) else s

/-- Lines 377-380 of `generate`: the list of
`(schema_tokens[i], find_index_of_subset(output, schema_tokens_enc[i]))`
pairs, one per configured delimiter. -/
def schemaTokenIndices (schemaTokens : List String) (enc : List (List Nat))
    (output : List Nat) : List (String × Int) :=
  (schemaTokens.zip enc).map (fun p => (p.1, find_index_of_subset output p.2))

/-- One insertion step of a stable ascending sort on the position component:
the new element goes before the first element whose position is `≥` its own,
so elements with equal positions keep their relative order, as with Python's
stable `list.sort(key=lambda x: x[1])` (line 382). -/
def insertByPos (a : String × Int) : List (String × Int) → List (String × Int)
  | [] => [a]
  | b :: l => if a.2 ≤ b.2 then a :: b :: l else b :: insertByPos a l

/-- Python's stable `list.sort(key=lambda x: x[1])` (line 382): ascending by
position. -/
def sortByPos (l : List (String × Int)) : List (String × Int) :=
  l.foldr insertByPos []

/-- Python list slicing `l[start:stop]` for a non-negative `start`, with
`stop = none` meaning "to the end" and a negative `stop` counting from the end
(clamped at 0), exactly as in CPython. -/
def pySlice (l : List Nat) (start : Nat) (stop : Option Int) : List Nat :=
  match stop with
  | none => l.drop start
  | some e =>
      let e' : Int := if e < 0 then (l.length : Int) + e else e
      (l.take e'.toNat).drop start

/-- The end index used for the `i`-th pair of the sorted index list
(lines 394-398): the next pair's position minus one, or `none` ("to sequence
end") for the last pair. -/
def sliceStop (l : List (String × Int)) (i : Nat) : Option Int :=
  match l.get? (i + 1) with
  | some q => some (q.2 - 1)
  | none => none

/-- The loop of lines 384-402 of `generate`: walking the sorted
(delimiter, position) pairs in order, assigning to each normalized key either
`""` (not-found sentinel) or the decoded slice
`output[start_index:end_index]`.  `d` is the tokenizer `decode` oracle
(called with `skip_special_tokens=True`).  The returned association list
records the dict assignments in program order. -/
def schemaFields (d : List Nat → String) (normalize : Bool) (output : List Nat) :
    List (String × Int) → List (String × String)
  | [] => []
  | (tok, pos) :: rest =>
      let key := normKey normalize tok
      let value :=
        if pos = -1 then ""
        else
          d (pySlice output pos.toNat
              (match rest with
               | [] => none
               | (_, nextPos) :: _ => some (nextPos - 1)))
      (key, value) :: schemaFields d normalize output rest

/-- The full per-output schema record of `generate` (lines 373-402), before
the `schema_return` pruning: locate each delimiter, sort by position, slice. -/
def schemaRecordAssignments (d : List Nat → String) (normalize : Bool)
    (schemaTokens : List String) (enc : List (List Nat)) (output : List Nat) :
    List (String × String) :=
  schemaFields d normalize output (sortByPos (schemaTokenIndices schemaTokens enc output))

/-- Python dict read-back on the assignment list: the LAST assignment to a key
wins (dict assignment overwrites). -/
def dictLookup : List (String × String) → String → Option String
  | [], _ => none
  | (k', v) :: rest, k =>
      match dictLookup rest k with
      | some v' => some v'
      | none => if k' = k then some v else none

/-- Python exceptions that the `schema_return` pruning block (lines 404-411)
can raise. -/
inductive PyError where
  | keyError
  | attributeError
  | runtimeError
deriving DecidableEq, Repr

/-- Result of the `schema_return` pruning for one output: either still a
record (dict), or a bare string (the single-field collapse of line 408). -/
inductive PruneResult where
  | record (fields : List (String × String))
  | scalar (s : String)
deriving DecidableEq, Repr

deriving instance DecidableEq for Except

/-- Lines 404-411 of `generate`, with CPython dynamic semantics:

    if schema_return:
        keys = gen_text_dict.keys()
        if len(schema_return) == 1:
            gen_text_dict = gen_text_dict[schema_return[0]]
        for key in keys:
            if key not in schema_return:
                gen_text_dict.pop(key, None)

* falsy (empty) `schema_return` leaves the record untouched;
* a single-element allow-list first replaces `gen_text_dict` by the looked-up
  string (`KeyError` if the key is absent); `keys` remains a view of the
  ORIGINAL dict, so the first key outside the allow-list then triggers
  `str.pop`, which raises `AttributeError`;
* with a longer allow-list, the first `pop` of a key outside the allow-list
  shrinks the dict during iteration over its live keys view, so the next step
  of the `for` loop raises `RuntimeError` (`dictionary changed size during
  iteration`; CPython raises it even when the popped key was the last one);
* only when every key of the record is in the allow-list does the block
  finish without an exception, leaving the record unchanged (or collapsed to
  the single string). -/
def schemaReturnPrune (d : List (String × String)) (schemaReturn : List String) :
    Except PyError PruneResult :=
  match schemaReturn with
  | [] => .ok (.record d)
  | [r] =>
      match dictLookup d r with
      | none => .error .keyError
      | some v =>
          if (d.map (·.1)).all (fun k => k == r) then .ok (.scalar v)
          else .error .attributeError
  | _ =>
      if (d.map (·.1)).all (fun k => schemaReturn.contains k) then .ok (.record d)
      else .error .runtimeError

/-- Python truthiness of the optional integer seed (`if seed:`, lines 338,
416, 451): `None` and `0` are falsy. -/
def seedTruthy : Option Int → Bool
  | none => false
  | some s => s != 0

/-- Python `\s` for the purposes of `re.sub(r"^\s+", "", text)` (line 436):
ASCII whitespace. -/
def isPySpace (c : Char) : Bool :=
  c == ' ' || c == '\t' || c == '\n' || c == '\r' || c == '\x0b' || c == '\x0c'

/-- `re.sub(r"^\s+", "", text)` (line 436): strip leading whitespace. -/
def pyLstrip (s : String) : String :=
  String.mk (s.toList.dropWhile isPySpace)

/-- Lines 430-444 of `generate` (non-schema path): batch-decode every output,
optionally left-strip, and with `nonempty_output` filter by
`len(x) > min_length` (note the STRICT inequality of line 441) when
`min_length` is truthy, else drop empty strings (`len(x) > 0`, line 444).
`dB` is the `tokenizer.batch_decode` oracle applied elementwise. -/
def nonSchemaClean (dB : List Nat → String) (lstrip nonemptyOutput : Bool)
    (minLength : Option Nat) (outputs : List (List Nat)) : List String :=
  let texts := outputs.map dB
  let texts := if lstrip then texts.map pyLstrip else texts
  if nonemptyOutput then
    match minLength with
    | some m =>
        if m ≠ 0 then texts.filter (fun t => decide (m < t.length))
        else texts.filter (fun t => decide (0 < t.length))
    | none => texts.filter (fun t => decide (0 < t.length))
  else texts

/-- Observable events of one `generate` call, in program order.  `setSeed` and
`resetSeed` are modelled from the spec: they stand for the repository's
`utils.set_seed` / `utils.reset_seed` (not among the given sources), which
apply the given seed to the global random state and reset it to a fresh
random state, respectively.  `sample k` is the `k`-th `self.model.generate`
call (line 351); `printOut`/`ret` is the final console print / return. -/
inductive GenEvent where
  | setSeed (s : Int)
  | sample (k : Nat)
  | resetSeed
  | printOut
  | ret
deriving DecidableEq, Repr

/-- Result of one `generate` call: the `AssertionError` of lines 318-322, a
propagated Python exception from the pruning block, the returned/printed
non-schema batch, the returned/printed schema records, or the model artifact
for running out of fuel (the real `while True:` loop is unbounded). -/
inductive GenResult where
  | assertionError
  | pyError (e : PyError)
  | texts (l : List String)
  | recordsList (l : List PruneResult)
  | fuelExhausted
deriving DecidableEq, Repr

/-- The arguments and collaborator oracles of one `generate` call.
`promptNumTokens` is `list(prompt_tensors["input_ids"].shape)[1]` (line 319),
`maxLen` is `model_max_length(self.model.config)` (an abstraction of the
repository's `utils.model_max_length`, not among the given sources;
lines 320, 347).  `schemaTokens`/`schemaTokensEnc` are
`self.model.config.schema_tokens` and its per-delimiter encoding
(lines 365-367); `schemaReturn = []` models a falsy (absent or empty)
`schema_return`.  `sampler k` is the batch of token sequences produced by the
`k`-th `self.model.generate` call; `decode` / `decodeBatch` are
`tokenizer.decode` / the elementwise `tokenizer.batch_decode`.
Not modelled (external or presentation only): tensor devices, `prepend_bos`,
pad-token resolution, the `max_length` clamp of line 348, the `n`-dependent
list-vs-single return shape, and the ANSI prompt-bolding applied when
printing (lines 456-460) - the print path prints the `texts` carried by the
result, up to that bolding. -/
structure GenConfig where
  promptText : String
  promptNumTokens : Nat
  maxLen : Nat
  seed : Option Int
  schema : Bool
  schemaTokens : List String
  schemaTokensEnc : List (List Nat)
  schemaReturn : List String
  normalizeKey : Bool
  returnAsList : Bool
  lstrip : Bool
  nonemptyOutput : Bool
  minLength : Option Nat
  sampler : Nat → List (List Nat)
  decode : List Nat → String
  decodeBatch : List Nat → String

/-- `if prompt:` (line 318): a non-empty prompt string is truthy. -/
def GenConfig.promptTruthy (cfg : GenConfig) : Bool := cfg.promptText != ""

/-- The assertion of lines 318-322: with a truthy prompt, a tokenized prompt
length that is not strictly below the model maximum context length raises
`AssertionError` ("The prompt is too large for the model"). -/
def GenConfig.promptBlocked (cfg : GenConfig) : Bool :=
  cfg.promptTruthy && !(decide (cfg.promptNumTokens < cfg.maxLen))

/-- The schema record produced for one output sequence, including the
`schema_return` pruning (lines 373-411). -/
def buildRecord (cfg : GenConfig) (output : List Nat) : Except PyError PruneResult :=
  schemaReturnPrune
    (schemaRecordAssignments cfg.decode cfg.normalizeKey cfg.schemaTokens
      cfg.schemaTokensEnc output)
    cfg.schemaReturn

/-- The `for output in outputs:` loop of lines 373-413: records are built in
order and the first Python exception aborts the whole call. -/
def buildRecords (cfg : GenConfig) : List (List Nat) → Except PyError (List PruneResult)
  | [] => .ok []
  | o :: rest =>
      match buildRecord cfg o with
      | .error e => .error e
      | .ok r =>
          match buildRecords cfg rest with
          | .error e => .error e
          | .ok rs => .ok (r :: rs)

/-- The cleaned non-schema batch of the `k`-th sampling pass (lines 430-444
applied to the `k`-th batch of outputs). -/
def cleanAt (cfg : GenConfig) (k : Nat) : List String :=
  nonSchemaClean cfg.decodeBatch cfg.lstrip cfg.nonemptyOutput cfg.minLength
    (cfg.sampler k)

/-- The `while True:` loop of `generate` (lines 350-468), as a fuel-indexed
function; `k` is the index of the sampling pass (each iteration calls
`self.model.generate`, recorded as a `sample k` event).  The schema branch
(lines 363-426) never loops: it prints (`break`) or returns after the first
pass, and a Python exception from the pruning block propagates without a seed
reset.  The non-schema branch (lines 428-468) `continue`s whenever the
cleaned batch is empty (lines 446-448).  The seed reset (lines 415-417 and
450-452) happens before the final print/return, only for a truthy seed.
`fuel` bounds the number of iterations modelled; the real loop is unbounded
(`.fuelExhausted` is the model artifact for exceeding the bound). -/
def genLoopAux (cfg : GenConfig) : Nat → Nat → List GenEvent × GenResult
  | 0, _ => ([], .fuelExhausted)
  | fuel + 1, k =>
      let outputs := cfg.sampler k
      if cfg.schema then
        match buildRecords cfg outputs with
        | .error e => ([.sample k], .pyError e)
        | .ok recs =>
            let resetEvs := if seedTruthy cfg.seed then [GenEvent.resetSeed] else []
            let last := if cfg.returnAsList then GenEvent.ret else GenEvent.printOut
            (GenEvent.sample k :: (resetEvs ++ [last]), .recordsList recs)
      else
        let texts := cleanAt cfg k
        if texts.isEmpty then
          let rest := genLoopAux cfg fuel (k + 1)
          (GenEvent.sample k :: rest.1, rest.2)
        else
          let resetEvs := if seedTruthy cfg.seed then [GenEvent.resetSeed] else []
          let last := if cfg.returnAsList then GenEvent.ret else GenEvent.printOut
          (GenEvent.sample k :: (resetEvs ++ [last]), .texts texts)

/-- One `aitextgen.generate` call (lines 276-468): the prompt-length
assertion (lines 318-322) fires before seeding and before any sampling;
`set_seed(seed)` (lines 338-339) runs only for a truthy seed; then the
sampling/post-processing loop runs. -/
def generateModel (cfg : GenConfig) (fuel : Nat) : List GenEvent × GenResult :=
  if cfg.promptBlocked then ([], .assertionError)
  else
    let seedEvs :=
      if seedTruthy cfg.seed then [GenEvent.setSeed (cfg.seed.getD 0)] else []
    let rest := genLoopAux cfg fuel 0
    (seedEvs ++ rest.1, rest.2)

/-- Number of `sample` events (model sampling passes) in a trace. -/
def countSamples : List GenEvent → Nat
  | [] => 0
  | .sample _ :: r => countSamples r + 1
  | _ :: r => countSamples r

/-- A call result that returns or prints normally (as opposed to raising or
to the fuel artifact). -/
def isNormal : GenResult → Bool
  | .texts _ => true
  | .recordsList _ => true
  | _ => false

/-- Line 800 of `cross_train`:
`learning_rate = [learning_rate / (2 ** x) for x in range(len(datasets))]`
when a scalar learning rate is given.  Python float division is modelled as
exact division over `ℚ`. -/
def cross_train_learning_rates (lr : ℚ) (k : Nat) : List ℚ :=
  (List.range k).map (fun x => lr / 2 ^ x)

/-- Line 803 of `cross_train`:
`num_steps = [int(num_steps / (2 ** x)) for x in range(len(datasets))]`
when a scalar step budget is given: true division followed by `int`
truncation, which for a natural step budget is floor division (Python's
float `/` is modelled as exact division). -/
def cross_train_num_steps (n : Nat) (k : Nat) : List Nat :=
  (List.range k).map (fun x => n / 2 ^ x)

/-- The slice of `train`'s resolved trainer configuration that concerns
precision (lines 625-626, 698-705, 734-737 and 753-754 of `aitextgen.py`).
`fp16` is the local `fp16` flag after the DeepSpeed forcing of lines 703-705;
`precision`/`ampLevel`/`ampBackend` are the `train_params` entries
`"precision"`, `"amp_level"` and `"amp_backend"` (absent = `none`);
`deepspeedPlugin` records whether a `DeepSpeedPlugin` is passed as `plugins`.
Fields of `train_params` not involved in precision resolution (gpus,
max_steps, callbacks, ...) are out of scope here. -/
structure ResolvedTrainConfig where
  fp16 : Bool
  deepspeedPlugin : Bool
  precision : Option Nat
  ampLevel : Option String
  ampBackend : Option String
deriving DecidableEq, Repr

/-- Precision resolution of `train`: `is_gpu_used` is
`torch.cuda.is_available() and n_gpu != 0` (line 626).  Lines 699-705: with a
GPU and `use_deepspeed`, a `DeepSpeedPlugin` is created and `fp16` is forced
to `True`.  Line 734-737: `if fp16:` sets `train_params["precision"] = 32`
(the source literally reads `32 #16 if fp16 else 32` - the value 16 survives
only inside the comment), plus the amp options.  Lines 753-754 then
unconditionally overwrite `amp_level` with `"O1"` and `amp_backend` with
`"native"`. -/
def resolveTrainConfig (fp16 use_deepspeed is_gpu_used : Bool)
    (fp16_opt_level : String) : ResolvedTrainConfig :=
  let ds := is_gpu_used && use_deepspeed
  let fp16r := if ds then true else fp16
  let base : ResolvedTrainConfig :=
    { fp16 := fp16r, deepspeedPlugin := ds, precision := none,
      ampLevel := none, ampBackend := none }
  let withFp16 :=
    if fp16r then
      { base with
        precision := some 32
        ampLevel := some fp16_opt_level
        ampBackend := some "native" }
    else base
  { withFp16 with ampLevel := some "O1", ampBackend := some "native" }

/-- The filter stated by claim C6, following its words: "the decoded batch
with sequences SHORTER THAN the given minimum length removed" - i.e. keep
exactly the texts whose length is not strictly below the minimum.  To be
compared with the source's strict `len(x) > min_length` filter embedded in
`nonSchemaClean`. -/
def specMinFilter (m : Nat) (ts : List String) : List String :=
  ts.filter (fun t => !(decide (t.length < m)))

/-- A concrete tokenizer-decode oracle used by witnesses and counterexamples:
each token decodes to one character `a`. -/
def decodeAs (l : List Nat) : String :=
  String.mk (l.map (fun _ => 'a'))

/-- A concrete decode oracle for the C6 boundary counterexample: token 1
decodes to a two-character text, token 2 to a three-character text. -/
def decodeC6 (l : List Nat) : String :=
  if l = [1] then "ab" else if l = [2] then "abc" else ""

/-- Base concrete generation configuration for witnesses and counterexamples:
no prompt, no seed, non-schema, return-as-list, defaults
`normalize_key=True`, `lstrip=True`, `nonempty_output=True`,
`min_length=None`, and a sampler that always returns one two-token
sequence. -/
def baseCfg : GenConfig where
  promptText := ""
  promptNumTokens := 0
  maxLen := 1024
  seed := none
  schema := false
  schemaTokens := []
  schemaTokensEnc := []
  schemaReturn := []
  normalizeKey := true
  returnAsList := true
  lstrip := true
  nonemptyOutput := true
  minLength := none
  sampler := fun _ => [[1, 2]]
  decode := decodeAs
  decodeBatch := decodeAs

/-- A call with a truthy prompt whose tokenized length equals the model
maximum context length. -/
def cfgPromptTooLong : GenConfig :=
  { baseCfg with promptText := "hello", promptNumTokens := 1024 }

/-- Non-schema call with `min_length=2` whose first batch decodes to
`["ab", "abc"]`: the boundary input for claim C6. -/
def cfgMinBoundary : GenConfig :=
  { baseCfg with
    minLength := some 2
    sampler := fun _ => [[1], [2]]
    decodeBatch := decodeC6 }

/-- Non-schema call with `min_length=2` whose first batch is filtered away
entirely and whose second batch survives: exercises the retry. -/
def cfgRetry : GenConfig :=
  { baseCfg with
    minLength := some 2
    sampler := fun k => if k = 0 then [[7]] else [[1, 2, 3]] }

/-- A call supplied with the numeric seed 0 (falsy in Python). -/
def cfgSeedZero : GenConfig :=
  { baseCfg with seed := some 0 }

/-- A call supplied with the nonzero seed 42. -/
def cfgSeed42 : GenConfig :=
  { baseCfg with seed := some 42 }

/-- A schema call with delimiters `"Q:"` (encoded `[1]`) and `"A:"` (encoded
`[2]`), no allow-list. -/
def cfgSchema : GenConfig :=
  { baseCfg with
    schema := true
    schemaTokens := ["Q:", "A:"]
    schemaTokensEnc := [[1], [2]]
    sampler := fun _ => [[1, 5, 2, 6]] }

/-- The schema call of `cfgSchema` with the single-field allow-list
`schema_return = ["Q"]`. -/
def cfgSchemaPrune : GenConfig :=
  { cfgSchema with schemaReturn := ["Q"] }

/-! ## Helper lemmas -/

theorem mem_insertByPos {x a : String × Int} {l : List (String × Int)} :
    x ∈ insertByPos a l ↔ x = a ∨ x ∈ l := by
  induction l with
  | nil => simp [insertByPos]
  | cons b t ih =>
      by_cases h : a.2 ≤ b.2
      · rw [insertByPos, if_pos h]
        simp only [List.mem_cons]
      · rw [insertByPos, if_neg h]
        simp only [List.mem_cons, ih]
        tauto

theorem pairwise_insertByPos {a : String × Int} {l : List (String × Int)}
    (hl : l.Pairwise (fun p q => p.2 ≤ q.2)) :
    (insertByPos a l).Pairwise (fun p q => p.2 ≤ q.2) := by
  induction l with
  | nil => simp [insertByPos]
  | cons b t ih =>
      rcases List.pairwise_cons.1 hl with ⟨hb, ht⟩
      by_cases h : a.2 ≤ b.2
      · rw [insertByPos, if_pos h]
        refine List.pairwise_cons.2 ⟨?_, hl⟩
        intro x hx
        rcases List.mem_cons.1 hx with rfl | hx
        · exact h
        · exact le_trans h (hb x hx)
      · rw [insertByPos, if_neg h]
        refine List.pairwise_cons.2 ⟨?_, ih ht⟩
        intro x hx
        rcases mem_insertByPos.1 hx with rfl | hx
        · exact le_of_not_le h
        · exact hb x hx

theorem sortByPos_pairwise (l : List (String × Int)) :
    (sortByPos l).Pairwise (fun p q => p.2 ≤ q.2) := by
  induction l with
  | nil => exact List.Pairwise.nil
  | cons a t ih => exact pairwise_insertByPos ih

theorem perm_insertByPos (a : String × Int) (l : List (String × Int)) :
    List.Perm (insertByPos a l) (a :: l) := by
  induction l with
  | nil => exact List.Perm.refl _
  | cons b t ih =>
      by_cases h : a.2 ≤ b.2
      · rw [insertByPos, if_pos h]
      · rw [insertByPos, if_neg h]
        exact (ih.cons b).trans (List.Perm.swap a b t)

theorem sortByPos_perm (l : List (String × Int)) : List.Perm (sortByPos l) l := by
  induction l with
  | nil => exact List.Perm.refl _
  | cons a t ih => exact (perm_insertByPos a (sortByPos t)).trans (ih.cons a)

theorem schemaFields_length (d : List Nat → String) (nz : Bool) (out : List Nat)
    (l : List (String × Int)) : (schemaFields d nz out l).length = l.length := by
  induction l with
  | nil => rfl
  | cons a t ih =>
      obtain ⟨tok, pos⟩ := a
      simp [schemaFields, ih]

/-- Characterisation of the `i`-th dict assignment performed by the slicing
loop (lines 384-402): the key is the normalized `i`-th sorted delimiter, the
value is `""` for the not-found sentinel and otherwise the decoded Python
slice whose end is the next pair's position minus one (or the end of the
sequence for the last pair). -/
theorem schemaFields_get? (d : List Nat → String) (nz : Bool) (out : List Nat)
    (l : List (String × Int)) (i : Nat) (tok : String) (pos : Int)
    (h : l.get? i = some (tok, pos)) :
    (schemaFields d nz out l).get? i =
      some (normKey nz tok,
        if pos = -1 then "" else d (pySlice out pos.toNat (sliceStop l i))) := by
  induction l generalizing i with
  | nil => simp at h
  | cons a t ih =>
      obtain ⟨tk, p⟩ := a
      cases i with
      | zero =>
          simp only [List.get?_cons_zero, Option.some.injEq, Prod.mk.injEq] at h
          obtain ⟨rfl, rfl⟩ := h
          cases t with
          | nil => simp [schemaFields, sliceStop]
          | cons b t' =>
              obtain ⟨tk', p'⟩ := b
              simp [schemaFields, sliceStop]
      | succ j =>
          simp only [List.get?_cons_succ] at h
          have hstep : (schemaFields d nz out ((tk, p) :: t)).get? (j + 1) =
              (schemaFields d nz out t).get? j := rfl
          have hstop : sliceStop ((tk, p) :: t) (j + 1) = sliceStop t j := by
            simp [sliceStop]
          rw [hstep, hstop, ih j h]

theorem find_index_of_subset_ge_neg_one (output enc : List Nat) :
    -1 ≤ find_index_of_subset output enc := by
  unfold find_index_of_subset
  by_cases h : enc.isEmpty
  · simp [h]
  · simp only [h, Bool.false_eq_true, if_false]
    cases hfind : (List.range output.length).find?
        (fun i => (output.drop i).take enc.length == enc) with
    | none => exact le_refl _
    | some i => exact le_trans (by norm_num) (Int.natCast_nonneg i)

theorem schemaTokenIndices_pos_ge (toks : List String) (enc : List (List Nat))
    (output : List Nat) {p : String × Int}
    (hp : p ∈ schemaTokenIndices toks enc output) : -1 ≤ p.2 := by
  obtain ⟨q, _, rfl⟩ := List.mem_map.1 hp
  exact find_index_of_subset_ge_neg_one output q.2

theorem dictLookup_eq_none {d : List (String × String)} {k : String}
    (h : ∀ p ∈ d, p.1 ≠ k) : dictLookup d k = none := by
  induction d with
  | nil => rfl
  | cons a t ih =>
      obtain ⟨k', v⟩ := a
      have ht : dictLookup t k = none :=
        ih (fun p hp => h p (List.mem_cons_of_mem _ hp))
      have hk : k' ≠ k := h (k', v) (List.mem_cons_self _ _)
      simp [dictLookup, ht, hk]

theorem dictLookup_of_nodup {d : List (String × String)} {k v : String}
    (hnd : (d.map Prod.fst).Nodup) (hmem : (k, v) ∈ d) :
    dictLookup d k = some v := by
  induction d with
  | nil => simp at hmem
  | cons a t ih =>
      obtain ⟨k', v'⟩ := a
      rw [List.map_cons, List.nodup_cons] at hnd
      obtain ⟨hk', hnt⟩ := hnd
      rcases List.mem_cons.1 hmem with heq | hmem'
      · obtain ⟨h1, h2⟩ := Prod.mk.injEq .. ▸ heq
        subst h1; subst h2
        have ht : dictLookup t k = none := by
          refine dictLookup_eq_none (fun p hp hpk => hk' ?_)
          have hp1 : p.1 ∈ t.map Prod.fst := List.mem_map_of_mem Prod.fst hp
          rwa [hpk] at hp1
        simp [dictLookup, ht]
      · have := ih hnt hmem'
        simp [dictLookup, this]

theorem schemaFields_map_fst (d : List Nat → String) (nz : Bool) (out : List Nat)
    (l : List (String × Int)) :
    (schemaFields d nz out l).map Prod.fst = l.map (fun p => normKey nz p.1) := by
  induction l with
  | nil => rfl
  | cons a t ih =>
      obtain ⟨tok, pos⟩ := a
      simp [schemaFields, ih]

/-! ## Claims C1-C4: the schema post-processor -/

/-- C1 (confirmed): in schema mode, the (delimiter, position) pairs are in
ascending position order after the sort of line 382, and each found pair's
assigned value is the decoded Python slice `output[start_index:end_index]`
where `end_index` is the next sorted pair's position minus one - `none`,
i.e. `output[start_index:]` extending to sequence end, for the last pair
(the last conjunct makes the "to the end" reading of `stop = none`
explicit). -/
theorem schema_slicing_ordered (d : List Nat → String) (nz : Bool)
    (toks : List String) (enc : List (List Nat)) (output : List Nat) :
    (sortByPos (schemaTokenIndices toks enc output)).Pairwise (fun a b => a.2 ≤ b.2) ∧
    (∀ (i : Nat) (tok : String) (pos : Int),
      (sortByPos (schemaTokenIndices toks enc output)).get? i = some (tok, pos) →
      pos ≠ -1 →
      (schemaRecordAssignments d nz toks enc output).get? i =
        some (normKey nz tok,
          d (pySlice output pos.toNat
              (sliceStop (sortByPos (schemaTokenIndices toks enc output)) i)))) ∧
    (∀ s : Nat, pySlice output s none = output.drop s) := by
  refine ⟨sortByPos_pairwise _, ?_, fun s => rfl⟩
  intro i tok pos hget hpos
  have h := schemaFields_get? d nz output _ i tok pos hget
  rw [if_neg hpos] at h
  exact h

/-- Witness for C1, at the spec's worked scenario (`"Q:"` encoded `[10,20]`
found at 0, `"A:"` encoded `[99]` found at 2): the first sorted field is
assigned the decoded slice `output[0:1]`. -/
theorem schema_slicing_ordered_witness :
    (schemaRecordAssignments decodeAs true ["Q:", "A:"] [[10, 20], [99]]
        [10, 20, 99, 30, 40]).get? 0 =
      some (normKey true "Q:",
        decodeAs (pySlice [10, 20, 99, 30, 40] (0 : Int).toNat
          (sliceStop (sortByPos (schemaTokenIndices ["Q:", "A:"] [[10, 20], [99]]
            [10, 20, 99, 30, 40])) 0))) :=
  (schema_slicing_ordered decodeAs true ["Q:", "A:"] [[10, 20], [99]]
    [10, 20, 99, 30, 40]).2.1 0 "Q:" 0 (by decide) (by decide)

/-- Counterexample to C2 as stated: with delimiter `"A"` (encoded `[5]`) NOT
found in the output `[7]` and delimiter `"B"` (encoded `[7]`) found at 0, the
ascending sort places the not-found pair (sentinel `-1`) FIRST, at index 0,
BEFORE the found pair at index 1 - not after it. -/
theorem schema_sort_sentinel_cex :
    sortByPos (schemaTokenIndices ["A", "B"] [[5], [7]] [7]) =
      [("A", -1), ("B", 0)] ∧
    find_index_of_subset [7] [5] = -1 ∧
    find_index_of_subset [7] [7] = 0 := by decide

/-- C2 (amended): in the sorted (delimiter, position) list, every not-found
pair (position `-1`) sorts BEFORE all found pairs: at or after the index of
any found pair, every pair is found. -/
theorem schema_sort_notfound_first (toks : List String) (enc : List (List Nat))
    (output : List Nat) (i j : Nat) (ti tj : String) (a b : Int)
    (hij : i ≤ j)
    (hi : (sortByPos (schemaTokenIndices toks enc output)).get? i = some (ti, a))
    (hj : (sortByPos (schemaTokenIndices toks enc output)).get? j = some (tj, b))
    (hfound : a ≠ -1) : b ≠ -1 := by
  have hgei : -1 ≤ a := by
    have hmem : (ti, a) ∈ sortByPos (schemaTokenIndices toks enc output) :=
      List.get?_mem hi
    exact schemaTokenIndices_pos_ge toks enc output
      (((sortByPos_perm _).mem_iff).1 hmem)
  rcases Nat.lt_or_ge i j with hlt | hge
  · obtain ⟨hib, hgi⟩ := List.get?_eq_some.1 hi
    obtain ⟨hjb, hgj⟩ := List.get?_eq_some.1 hj
    have hpw := List.pairwise_iff_get.1
      (sortByPos_pairwise (schemaTokenIndices toks enc output))
      ⟨i, hib⟩ ⟨j, hjb⟩ hlt
    rw [hgi, hgj] at hpw
    simp only at hpw
    omega
  · have hij' : i = j := le_antisymm hij hge
    subst hij'
    rw [hi] at hj
    simp only [Option.some.injEq, Prod.mk.injEq] at hj
    exact hj.2 ▸ hfound

/-- Witness for the amended C2: both delimiters found at position 0. -/
theorem schema_sort_notfound_first_witness : (0 : Int) ≠ -1 :=
  schema_sort_notfound_first ["A", "B"] [[7], [7]] [7] 0 1 "A" "B" 0 0
    (by decide) (by decide) (by decide) (by decide)

/-- Counterexample to C3 as stated: delimiters `"Q:"` (encoded `[5]`, NOT
found in the output `[9,7]`) and `"Q!"` (encoded `[9]`, found at 0) share the
normalized field key `"Q"`.  The not-found delimiter's key is first assigned
`""`, but the found delimiter's assignment overwrites it, so the produced
record maps the not-found delimiter's field key to `"aa"`, not to the empty
string. -/
theorem schema_notfound_key_overwritten_cex :
    dictLookup (schemaRecordAssignments decodeAs true ["Q:", "Q!"] [[5], [9]]
      [9, 7]) "Q" = some "aa" ∧
    find_index_of_subset [9, 7] [5] = -1 ∧
    normKey true "Q:" = "Q" ∧ normKey true "Q!" = "Q" ∧
    ("aa" : String) ≠ "" := by decide

/-- C3 (amended): provided the configured delimiters' normalized field keys
are pairwise distinct, every delimiter whose encoded subsequence is not found
in the output (sentinel `-1`) has its field key mapped to the empty string in
the produced record; the assignment is total - no error is raised for such a
field (`if start_index == -1: gen_text_dict[key] = ""`, lines 391-392). -/
theorem schema_notfound_empty_field (d : List Nat → String) (nz : Bool)
    (toks : List String) (enc : List (List Nat)) (output : List Nat)
    (tok : String) (tEnc : List Nat)
    (hmem : (tok, tEnc) ∈ toks.zip enc)
    (hnf : find_index_of_subset output tEnc = -1)
    (hnd : ((toks.zip enc).map (fun p => normKey nz p.1)).Nodup) :
    dictLookup (schemaRecordAssignments d nz toks enc output)
      (normKey nz tok) = some "" := by
  have hidx : (tok, (-1 : Int)) ∈ schemaTokenIndices toks enc output := by
    rw [schemaTokenIndices, ← hnf]
    exact List.mem_map_of_mem
      (fun p : String × List Nat => (p.1, find_index_of_subset output p.2)) hmem
  have hsorted : (tok, (-1 : Int)) ∈ sortByPos (schemaTokenIndices toks enc output) :=
    ((sortByPos_perm _).mem_iff).2 hidx
  obtain ⟨n, hn⟩ := List.get?_of_mem hsorted
  have hget := schemaFields_get? d nz output _ n tok (-1) hn
  rw [if_pos rfl] at hget
  have hmem2 : (normKey nz tok, "") ∈ schemaRecordAssignments d nz toks enc output :=
    List.get?_mem hget
  have hkeys : ((schemaRecordAssignments d nz toks enc output).map Prod.fst).Nodup := by
    rw [show schemaRecordAssignments d nz toks enc output =
      schemaFields d nz output (sortByPos (schemaTokenIndices toks enc output)) from rfl]
    rw [schemaFields_map_fst]
    refine (((sortByPos_perm _).map _).nodup_iff).2 ?_
    have hmaps : (schemaTokenIndices toks enc output).map (fun p => normKey nz p.1) =
        (toks.zip enc).map (fun p => normKey nz p.1) := by
      rw [schemaTokenIndices, List.map_map]
      rfl
    rw [hmaps]
    exact hnd
  exact dictLookup_of_nodup hkeys hmem2

/-- Witness for the amended C3: `"Q:"` (encoded `[5]`) is not found in the
output `[9]`, keys `["Q", "A"]` are distinct, and the record maps `"Q"` to
`""`. -/
theorem schema_notfound_empty_field_witness :
    dictLookup (schemaRecordAssignments decodeAs true ["Q:", "A:"] [[5], [9]] [9])
      (normKey true "Q:") = some "" :=
  schema_notfound_empty_field decodeAs true ["Q:", "A:"] [[5], [9]] [9] "Q:" [5]
    (by decide) (by decide) (by decide)

/-- C4 (code bug, evaluated): the `schema_return` pruning block of
lines 404-411.  With the two-field record `{Q: q, A: a}` and the single-field
allow-list `["Q"]`, the code raises `AttributeError` instead of collapsing to
`"q"`; with the three-field record `{Q, A, B}` and the allow-list
`["Q", "A"]`, the first `pop` shrinks the dict during iteration over its live
keys view and the code raises `RuntimeError` instead of dropping `B`.  Only
when every record key is allow-listed (third conjunct) does the block succeed. -/
theorem schema_return_prune_raises :
    schemaReturnPrune [("Q", "q"), ("A", "a")] ["Q"] =
      .error .attributeError ∧
    schemaReturnPrune [("Q", "q"), ("A", "a"), ("B", "b")] ["Q", "A"] =
      .error .runtimeError ∧
    schemaReturnPrune [("Q", "q")] ["Q"] = .ok (.scalar "q") := by decide

/-! ## Claims C5, C6, C9, C10: the generate call and its retry loop -/

theorem countSamples_append (a b : List GenEvent) :
    countSamples (a ++ b) = countSamples a + countSamples b := by
  induction a with
  | nil => simp [countSamples]
  | cons e t ih =>
      cases e with
      | sample k =>
          simp [countSamples, ih]
          omega
      | setSeed s => simp [countSamples, ih]
      | resetSeed => simp [countSamples, ih]
      | printOut => simp [countSamples, ih]
      | ret => simp [countSamples, ih]

/-- C5 (confirmed): with a truthy (non-empty) prompt whose tokenized length
is at least the model's maximum context length, `generate` raises
`AssertionError` (lines 318-322) before seeding and before any model
sampling - the trace is empty - and the result does not depend on the fuel
bound or the sampler: the failure is never retried. -/
theorem generate_prompt_assertion (cfg : GenConfig) (fuel : Nat)
    (hp : cfg.promptTruthy = true) (hlen : cfg.maxLen ≤ cfg.promptNumTokens) :
    generateModel cfg fuel = ([], .assertionError) ∧
    (∀ k, GenEvent.sample k ∉ (generateModel cfg fuel).1) := by
  have hb : cfg.promptBlocked = true := by
    rw [GenConfig.promptBlocked, hp]
    simp only [Bool.true_and, Bool.not_eq_true']
    exact decide_eq_false (by omega)
  refine ⟨by simp [generateModel, hb], fun k => by simp [generateModel, hb]⟩

/-- Witness for C5: a 1024-token prompt against a 1024-token context. -/
theorem generate_prompt_assertion_witness :
    generateModel cfgPromptTooLong 3 = ([], .assertionError) :=
  (generate_prompt_assertion cfgPromptTooLong 3 (by decide) (by decide)).1

/-- Counterexample to C6 as stated: with `min_length = 2` and the batch
decoding to `["ab", "abc"]`, the claim's filter ("sequences shorter than the
given minimum length removed") keeps both texts, but `generate` returns only
`["abc"]`: line 441 filters with the strict `len(x) > min_length`, which also
removes the text of length exactly 2. -/
theorem nonschema_min_length_boundary_cex :
    (generateModel cfgMinBoundary 5).2 = .texts ["abc"] ∧
    (cfgMinBoundary.sampler 0).map cfgMinBoundary.decodeBatch = ["ab", "abc"] ∧
    specMinFilter 2 ["ab", "abc"] = ["ab", "abc"] ∧
    (["abc"] : List String) ≠ ["ab", "abc"] := by decide

theorem genLoopAux_texts (cfg : GenConfig) (fuel k0 : Nat) (texts : List String)
    (h : (genLoopAux cfg fuel k0).2 = .texts texts) :
    ∃ n, texts = cleanAt cfg (k0 + n) ∧ texts ≠ [] ∧
      (∀ j, j < n → cleanAt cfg (k0 + j) = []) ∧
      (∀ j, j ≤ n → GenEvent.sample (k0 + j) ∈ (genLoopAux cfg fuel k0).1) := by
  induction fuel generalizing k0 with
  | zero => simp [genLoopAux] at h
  | succ f ih =>
      by_cases hs : cfg.schema
      · cases hb : buildRecords cfg (cfg.sampler k0) with
        | error e => simp [genLoopAux, hs, hb] at h
        | ok recs => simp [genLoopAux, hs, hb] at h
      · by_cases he : (cleanAt cfg k0).isEmpty
        · have h' : (genLoopAux cfg f (k0 + 1)).2 = .texts texts := by
            simpa [genLoopAux, hs, he] using h
          obtain ⟨n, h1, h2, h3, h4⟩ := ih (k0 + 1) h'
          have harith : k0 + 1 + n = k0 + (n + 1) := by omega
          refine ⟨n + 1, harith ▸ h1, h2, ?_, ?_⟩
          · intro j hj
            cases j with
            | zero =>
                simpa using List.isEmpty_iff.1 he
            | succ j' =>
                have : k0 + 1 + j' = k0 + (j' + 1) := by omega
                exact this ▸ h3 j' (by omega)
          · intro j hj
            have htrace : (genLoopAux cfg (f + 1) k0).1 =
                GenEvent.sample k0 :: (genLoopAux cfg f (k0 + 1)).1 := by
              simp [genLoopAux, hs, he]
            rw [htrace]
            cases j with
            | zero => simp
            | succ j' =>
                have : k0 + 1 + j' = k0 + (j' + 1) := by omega
                exact List.mem_cons_of_mem _ (this ▸ h4 j' (by omega))
        · have h' : texts = cleanAt cfg k0 := by
            have := h
            simp only [genLoopAux, hs, if_false, Bool.false_eq_true, he] at this
            simp [he] at this
            exact this.symm
          refine ⟨0, by simpa using h', ?_, by omega, ?_⟩
          · rw [h']
            exact fun hnil => (by simp [hnil] at he)
          · intro j hj
            have hj0 : j = 0 := by omega
            subst hj0
            simp [genLoopAux, hs, he]

/-- C6 (amended): every batch that the non-schema path returns (or prints,
before the console prompt-bolding) is the cleaned batch of some sampling
pass `k`: the decoded (and, with `lstrip`, left-stripped) sequences with -
under `nonempty_output` - those of length AT MOST a truthy `min_length`
removed (the strict `len(x) > min_length` of line 441; empty strings removed
when `min_length` is `None` or 0).  That batch is non-empty, the cleaned
batches of all earlier passes were empty, and each pass re-sampled the model
from scratch (a `sample j` event for every `j ≤ k`). -/
theorem generate_nonschema_filter_retry (cfg : GenConfig) (fuel : Nat)
    (texts : List String)
    (hres : (generateModel cfg fuel).2 = .texts texts) :
    ∃ k, texts = cleanAt cfg k ∧ texts ≠ [] ∧
      (∀ j, j < k → cleanAt cfg j = []) ∧
      (∀ j, j ≤ k → GenEvent.sample j ∈ (generateModel cfg fuel).1) := by
  by_cases hb : cfg.promptBlocked
  · simp [generateModel, hb] at hres
  · have hres' : (genLoopAux cfg fuel 0).2 = .texts texts := by
      simpa [generateModel, hb] using hres
    obtain ⟨n, h1, h2, h3, h4⟩ := genLoopAux_texts cfg fuel 0 texts hres'
    refine ⟨n, by simpa using h1, h2, fun j hj => by simpa using h3 j hj,
      fun j hj => ?_⟩
    have hmem := h4 j hj
    simp only [Nat.zero_add] at hmem
    simp [generateModel, hb]
    exact hmem

/-- Witness for the amended C6: the first pass cleans to the empty batch and
is retried, the second pass survives the `min_length = 2` filter. -/
theorem generate_nonschema_filter_retry_witness :
    ∃ k, (["aaa"] : List String) = cleanAt cfgRetry k ∧
      (["aaa"] : List String) ≠ [] ∧
      (∀ j, j < k → cleanAt cfgRetry j = []) ∧
      (∀ j, j ≤ k → GenEvent.sample j ∈ (generateModel cfgRetry 5).1) :=
  generate_nonschema_filter_retry cfgRetry 5 ["aaa"] (by decide)

/-- Counterexample to C9 as stated: the call `generate(seed=0)` is supplied
with a fixed numeric seed, but `if seed:` (lines 338, 451) treats 0 as falsy:
the call samples and returns normally with the seed never applied
(`setSeed 0` absent from the trace) and the random state never reset
(`resetSeed` absent). -/
theorem generate_seed_zero_cex :
    cfgSeedZero.seed = some 0 ∧
    (generateModel cfgSeedZero 3).1 = [GenEvent.sample 0, GenEvent.ret] ∧
    GenEvent.setSeed 0 ∉ (generateModel cfgSeedZero 3).1 ∧
    GenEvent.resetSeed ∉ (generateModel cfgSeedZero 3).1 ∧
    (generateModel cfgSeedZero 3).2 = .texts ["aa"] := by decide

theorem genLoopAux_trace_shape (cfg : GenConfig) (fuel k0 : Nat)
    (htr : seedTruthy cfg.seed = true)
    (hnorm : isNormal (genLoopAux cfg fuel k0).2 = true) :
    ∃ (ks : List Nat) (last : GenEvent),
      (genLoopAux cfg fuel k0).1 =
        ks.map GenEvent.sample ++ [GenEvent.resetSeed, last] ∧
      (last = GenEvent.ret ∨ last = GenEvent.printOut) := by
  induction fuel generalizing k0 with
  | zero => simp [genLoopAux, isNormal] at hnorm
  | succ f ih =>
      by_cases hs : cfg.schema
      · cases hb : buildRecords cfg (cfg.sampler k0) with
        | error e => simp [genLoopAux, hs, hb, isNormal] at hnorm
        | ok recs =>
            refine ⟨[k0],
              if cfg.returnAsList then GenEvent.ret else GenEvent.printOut, ?_, ?_⟩
            · simp [genLoopAux, hs, hb, htr]
            · by_cases hr : cfg.returnAsList <;> simp [hr]
      · by_cases he : (cleanAt cfg k0).isEmpty
        · have hnorm' : isNormal (genLoopAux cfg f (k0 + 1)).2 = true := by
            simpa [genLoopAux, hs, he] using hnorm
          obtain ⟨ks, last, h1, h2⟩ := ih (k0 + 1) hnorm'
          refine ⟨k0 :: ks, last, ?_, h2⟩
          simp [genLoopAux, hs, he, h1]
        · refine ⟨[k0],
            if cfg.returnAsList then GenEvent.ret else GenEvent.printOut, ?_, ?_⟩
          · simp [genLoopAux, hs, he, htr]
          · by_cases hr : cfg.returnAsList <;> simp [hr]

/-- C9 (amended): for every call supplied with a NONZERO seed that returns or
prints normally, the trace is exactly `set_seed(seed)` first (so the seed is
applied to the global random state before every sampling pass), then the
sampling passes, then `reset_seed()` (the global state is reset to a fresh
random state), and only then the final return or print: the seed does not
leak into subsequent unrelated calls. -/
theorem generate_seed_applied_and_reset (cfg : GenConfig) (fuel : Nat) (s : Int)
    (hseed : cfg.seed = some s) (hs : s ≠ 0)
    (hnorm : isNormal (generateModel cfg fuel).2 = true) :
    ∃ (ks : List Nat) (last : GenEvent),
      (generateModel cfg fuel).1 =
        GenEvent.setSeed s ::
          (ks.map GenEvent.sample ++ [GenEvent.resetSeed, last]) ∧
      (last = GenEvent.ret ∨ last = GenEvent.printOut) := by
  have htr : seedTruthy cfg.seed = true := by
    simp [seedTruthy, hseed, hs]
  by_cases hb : cfg.promptBlocked
  · simp [generateModel, hb, isNormal] at hnorm
  · have hnorm' : isNormal (genLoopAux cfg fuel 0).2 = true := by
      simpa [generateModel, hb] using hnorm
    obtain ⟨ks, last, h1, h2⟩ := genLoopAux_trace_shape cfg fuel 0 htr hnorm'
    refine ⟨ks, last, ?_, h2⟩
    have hss : seedTruthy (some s) = true := by simp [seedTruthy, hs]
    simp [generateModel, hb, htr, h1, hseed, hss]

/-- Witness for the amended C9, at seed 42. -/
theorem generate_seed_applied_and_reset_witness :
    ∃ (ks : List Nat) (last : GenEvent),
      (generateModel cfgSeed42 3).1 =
        GenEvent.setSeed 42 ::
          (ks.map GenEvent.sample ++ [GenEvent.resetSeed, last]) ∧
      (last = GenEvent.ret ∨ last = GenEvent.printOut) :=
  generate_seed_applied_and_reset cfgSeed42 3 42 (by decide) (by decide) (by decide)

/-- Counterexample to C10 as stated: a schema call whose `schema_return`
pruning raises (single-field allow-list `["Q"]` over the two-field record)
performs exactly one sampling pass and terminates, but by propagating
`AttributeError` - it neither returns nor prints (no `ret`/`printOut`
event). -/
theorem generate_schema_prune_raises_cex :
    generateModel cfgSchemaPrune 5 =
      ([GenEvent.sample 0], .pyError .attributeError) ∧
    GenEvent.ret ∉ (generateModel cfgSchemaPrune 5).1 ∧
    GenEvent.printOut ∉ (generateModel cfgSchemaPrune 5).1 ∧
    countSamples (generateModel cfgSchemaPrune 5).1 = 1 := by decide

/-- C10 (amended): in schema mode (with the prompt assertion passing), every
`generate` call performs exactly one model sampling pass and then terminates
- returning or printing the records when post-processing succeeds, or
propagating the pruning exception - and the retry-until-nonempty loop never
re-samples: the call's outcome is independent of the fuel bound. -/
theorem generate_schema_single_pass (cfg : GenConfig) (fuel : Nat)
    (hschema : cfg.schema = true) (hfuel : 1 ≤ fuel)
    (hp : cfg.promptBlocked = false) :
    generateModel cfg fuel = generateModel cfg 1 ∧
    countSamples (generateModel cfg fuel).1 = 1 ∧
    ((∃ l, (generateModel cfg fuel).2 = .recordsList l) ∨
      (∃ e, (generateModel cfg fuel).2 = .pyError e)) := by
  cases fuel with
  | zero => exact absurd hfuel (by omega)
  | succ f =>
      have hloop : genLoopAux cfg (f + 1) 0 = genLoopAux cfg 1 0 := by
        cases hb : buildRecords cfg (cfg.sampler 0) <;>
          simp [genLoopAux, hschema, hb]
      refine ⟨by simp [generateModel, hp, hloop], ?_, ?_⟩
      · cases hb : buildRecords cfg (cfg.sampler 0) with
        | error e =>
            by_cases ht : seedTruthy cfg.seed <;>
              simp [generateModel, hp, genLoopAux, hschema, hb, ht,
                countSamples_append, countSamples]
        | ok recs =>
            by_cases ht : seedTruthy cfg.seed <;>
              by_cases hr : cfg.returnAsList <;>
                simp [generateModel, hp, genLoopAux, hschema, hb, ht, hr,
                  countSamples_append, countSamples]
      · cases hb : buildRecords cfg (cfg.sampler 0) with
        | error e =>
            refine Or.inr ⟨e, ?_⟩
            simp [generateModel, hp, genLoopAux, hschema, hb]
        | ok recs =>
            refine Or.inl ⟨recs, ?_⟩
            simp [generateModel, hp, genLoopAux, hschema, hb]

/-- Witness for the amended C10: the two-delimiter schema call without an
allow-list. -/
theorem generate_schema_single_pass_witness :
    generateModel cfgSchema 5 = generateModel cfgSchema 1 ∧
    countSamples (generateModel cfgSchema 5).1 = 1 ∧
    ((∃ l, (generateModel cfgSchema 5).2 = .recordsList l) ∨
      (∃ e, (generateModel cfgSchema 5).2 = .pyError e)) :=
  generate_schema_single_pass cfgSchema 5 (by decide) (by decide) (by decide)

/-! ## Claims C7, C8: the training coordinator -/

/-- C7 (confirmed): with a scalar learning rate and scalar step budget over
`k` datasets, `cross_train` (lines 799-803) derives
`learning_rate_i = learning_rate_0 / 2 ^ i` and
`steps_i = steps_0 / 2 ^ i = floor(steps_0 / 2 ^ i)` for every `i < k`; in
particular `learning_rate = 1e-4` with 3 datasets yields the rates
`[1e-4, 5e-5, 2.5e-5]`. -/
theorem cross_train_decay :
    (∀ (lr : ℚ) (n k i : Nat), i < k →
      (cross_train_learning_rates lr k).get? i = some (lr / 2 ^ i) ∧
      (cross_train_num_steps n k).get? i = some (n / 2 ^ i) ∧
      (n / 2 ^ i : Nat) = Nat.floor ((n : ℚ) / 2 ^ i)) ∧
    cross_train_learning_rates (1 / 10000) 3 =
      [1 / 10000, 1 / 20000, 1 / 40000] := by
  constructor
  · intro lr n k i hik
    refine ⟨?_, ?_, ?_⟩
    · rw [cross_train_learning_rates, List.get?_map, List.get?_range hik]
      rfl
    · rw [cross_train_num_steps, List.get?_map, List.get?_range hik]
      rfl
    · rw [show ((2 : ℚ) ^ i) = ((2 ^ i : Nat) : ℚ) by push_cast; ring]
      rw [Nat.floor_div_nat ((n : ℚ)) (2 ^ i), Nat.floor_natCast]
  · norm_num [cross_train_learning_rates, List.range_succ]

/-- Witness for C7, at the second dataset (`i = 1`) of the spec's example. -/
theorem cross_train_decay_witness :
    (cross_train_learning_rates (1 / 10000) 3).get? 1 =
      some ((1 / 10000 : ℚ) / 2 ^ 1) ∧
    (cross_train_num_steps 4000 3).get? 1 = some (4000 / 2 ^ 1) ∧
    (4000 / 2 ^ 1 : Nat) = Nat.floor ((4000 : ℚ) / 2 ^ 1) :=
  cross_train_decay.1 (1 / 10000) 4000 3 1 (by decide)

/-- C8 (code bug, evaluated): requesting DeepSpeed with a GPU in use and
`fp16=False` forces the local `fp16` flag on and creates the plugin
(lines 699-705), but the resolved trainer configuration carries
`precision = 32`, not 16: line 735 hardcodes `train_params["precision"] = 32`
(the original `16 if fp16 else 32` survives only in the trailing comment),
contradicting the logged "Setting FP16 to True for DeepSpeed ZeRO
Training". -/
theorem deepspeed_precision_not_16 :
    (resolveTrainConfig false true true "O1").fp16 = true ∧
    (resolveTrainConfig false true true "O1").deepspeedPlugin = true ∧
    (resolveTrainConfig false true true "O1").precision = some 32 ∧
    (resolveTrainConfig false true true "O1").precision ≠ some 16 := by decide

-- Sanity checks on the spec's worked scenario:
-- outputs = [[10,20,99,30,40]], "Q:" encoded as [10,20] (found at 0),
-- "A:" encoded as [99] (found at 2); Q field = output[0:1], A field = output[2:].
example : find_index_of_subset [10, 20, 99, 30, 40] [10, 20] = 0 := by decide
example : find_index_of_subset [10, 20, 99, 30, 40] [99] = 2 := by decide
example : find_index_of_subset [10, 20, 99, 30, 40] [7] = -1 := by decide
example : find_index_of_subset [10, 20] [] = -1 := by decide
example : find_index_of_subset [10] [10, 20] = -1 := by decide

example :
    sortByPos (schemaTokenIndices ["Q:", "A:"] [[10, 20], [99]] [10, 20, 99, 30, 40]) =
      [("Q:", 0), ("A:", 2)] := by decide

example :
    schemaRecordAssignments (fun l => String.mk (l.map (fun _ => 'a'))) true
        ["Q:", "A:"] [[10, 20], [99]] [10, 20, 99, 30, 40] =
      [("Q", "a"), ("A", "aaa")] := by decide

end Aitextgen
